import Mathlib

/-!
Shallow embedding of the `linkaddrs` Rust library (`src/lib.rs`).

The library resolves IP addresses of network interfaces over rtnetlink.
We embed its data model and the resolution pipeline:

* raw netlink address records (`AddressMessage`, with a family tag, a
  prefix length and a list of attributes);
* the `ipnet` network values (`Ipv4Net`, `Ipv6Net`, `IpNet`) and the
  fallible constructor `IpNet.new`, which rejects an out-of-range
  prefix length exactly as `ipnet::IpNet::new` does;
* the per-record decode closure of `internal_addresses` (`decodeAddr`);
  the Rust closure calls `try_into().unwrap()` and `IpNet::new(..).unwrap()`,
  so a failed conversion is a panic, which we make explicit with `PanicOr`;
* the stream pipeline of `internal_addresses`: the link stream is drained
  with `try_next()?` (errors returned), each link's address stream goes
  through `map_ok (decode) |> try_filter is_some |> filter_map unwrap |> collect`,
  where `filter_map`'s `v.unwrap()` panics on an `Err` stream item;
* the public functions `addresses`, `ipv4_addresses`, `ipv6_addresses`,
  `all_addresses`, `all_ipv4_addresses`, `all_ipv6_addresses`.

The kernel side (rtnetlink transport) is abstracted as a `World`: a
possible runtime/connection failure plus, for each filter, the stream of
link records, and, for each link index, the stream of address records.
Streams of fallible records are `List (Except RtErr _)`: each item is
either an `Ok` record or a mid-stream protocol error, in arrival order.
-/

set_option autoImplicit false

namespace Linkaddrs

/-- A byte value (the Rust code works with `u8` payload bytes). -/
abbrev Byte := Nat

/-- `netlink_packet_route::address::Nla`: the attributes of an address
record. The code only distinguishes the `Address` attribute from every
other attribute kind, so all others are collapsed into `Other`, keeping
their kind tag and payload. -/
inductive Nla where
  | Address (bytes : List Byte)
  | Other (kind : Nat) (bytes : List Byte)
deriving DecidableEq, Repr

/-- The fixed header of an address record: address family (a `u8`, the
code compares it as `u16` against `AF_INET`/`AF_INET6`) and the prefix
length field (`prefix_len: u8`, here `plen`). -/
structure AddressHeader where
  family : Nat
  plen : Nat
deriving DecidableEq, Repr

/-- One raw address record as streamed by the kernel: header plus
attribute list (`v.nlas`). -/
structure AddressMessage where
  header : AddressHeader
  nlas : List Nla
deriving DecidableEq, Repr

/-- One raw link record; the pipeline only consumes `link.header.index`. -/
structure LinkMessage where
  index : Nat
deriving DecidableEq, Repr

/-- `AF_INET` from `netlink_packet_route::rtnl::constants`. -/
def AF_INET : Nat := 2

/-- `AF_INET6` from `netlink_packet_route::rtnl::constants`. -/
def AF_INET6 : Nat := 10

/-- `ipnet::Ipv4Net`: IPv4 address octets plus prefix length. -/
structure Ipv4Net where
  octets : List Byte
  plen : Nat
deriving DecidableEq, Repr

/-- `ipnet::Ipv6Net`: IPv6 address octets plus prefix length. -/
structure Ipv6Net where
  octets : List Byte
  plen : Nat
deriving DecidableEq, Repr

/-- `ipnet::IpNet`. -/
inductive IpNet where
  | V4 (n : Ipv4Net)
  | V6 (n : Ipv6Net)
deriving DecidableEq, Repr

/-- `std::net::IpAddr` as passed to `IpNet::new` (already tagged by
family, carrying the address octets). -/
inductive IpAddr where
  | V4 (octets : List Byte)
  | V6 (octets : List Byte)
deriving DecidableEq, Repr

/-- `ipnet::PrefixLenError`, the construction error of `IpNet::new`. -/
structure PlenError where
deriving DecidableEq, Repr

/-- `ipnet::IpNet::new(ip, prefix_len)`: errors when the prefix length
exceeds 32 (IPv4) or 128 (IPv6); otherwise builds the network value with
the given prefix length unchanged. -/
def IpNet.new (ip : IpAddr) (plen : Nat) : Except PlenError IpNet :=
  match ip with
  | IpAddr.V4 o => if plen ≤ 32 then Except.ok (IpNet.V4 ⟨o, plen⟩) else Except.error ⟨⟩
  | IpAddr.V6 o => if plen ≤ 128 then Except.ok (IpNet.V6 ⟨o, plen⟩) else Except.error ⟨⟩

/-- The prefix length stored in a network value. -/
def IpNet.plen : IpNet → Nat
  | IpNet.V4 n => n.plen
  | IpNet.V6 n => n.plen

/-- A computation that either yields a value or panics (a Rust
`unwrap()` failure unwinding out of the pipeline). -/
inductive PanicOr (α : Type) where
  | ok (val : α)
  | panic
deriving DecidableEq, Repr

/-- The decode closure passed to `map_ok` in `internal_addresses`:

```text
if let Some(Address(bytes)) = v.nlas.first() {
    match v.header.family as u16 {
        AF_INET => { let octets: [u8; 4] = bytes.clone().try_into().unwrap();
                     Some(IpNet::new(IpAddr::from(Ipv4Addr::from(octets)),
                                     v.header.prefix_len).unwrap()) }
        AF_INET6 => { ... [u8; 16] ... }
        _ => None,
    }
} else { None }
```

`try_into().unwrap()` panics when the payload length is not exactly 4
(resp. 16), and `IpNet::new(..).unwrap()` panics when the constructor
rejects the prefix length; both are `PanicOr.panic` here. -/
def decodeAddr (v : AddressMessage) : PanicOr (Option IpNet) :=
  match v.nlas.head? with
  | some (Nla.Address bytes) =>
    if v.header.family = AF_INET then
      if bytes.length = 4 then
        match IpNet.new (IpAddr.V4 bytes) v.header.plen with
        | Except.ok net => PanicOr.ok (some net)
        | Except.error _ => PanicOr.panic
      else PanicOr.panic
    else if v.header.family = AF_INET6 then
      if bytes.length = 16 then
        match IpNet.new (IpAddr.V6 bytes) v.header.plen with
        | Except.ok net => PanicOr.ok (some net)
        | Except.error _ => PanicOr.panic
      else PanicOr.panic
    else PanicOr.ok none
  | _ => PanicOr.ok none

/-- A mid-stream rtnetlink protocol error, abstracted as a token. -/
abbrev RtErr := Nat

/-- An I/O error (`std::io::Error`), abstracted as a token. -/
abbrev IoErr := Nat

/-- The public error enum of the library:

```text
pub enum Error { RtNetlink(rtnetlink::Error), IoError(std::io::Error) }
```
-/
inductive Error where
  | RtNetlink (e : RtErr)
  | IoError (e : IoErr)
deriving DecidableEq, Repr

/-- The observable result of one public call: a returned `Ok` value, a
returned `Err` value, or a panic unwinding out of the call. -/
inductive Outcome (α : Type) where
  | ok (val : α)
  | err (e : Error)
  | panic
deriving DecidableEq, Repr

/-- The abstracted environment of a call: whether `Runtime::new()` fails,
whether `rtnetlink::new_connection()` fails, the link stream produced
for a given name filter (the filter is applied kernel-side via
`match_name`), and the address stream for a given link index. Fallible
streams are lists of `Ok`-record / `Err`-protocol-error items in arrival
order. -/
structure World where
  runtimeErr : Option IoErr
  connErr : Option IoErr
  links : Option String → List (Except RtErr LinkMessage)
  addrs : Nat → List (Except RtErr AddressMessage)

/-- The per-link address pipeline of `internal_addresses`:

```text
addrs.map_ok(decode)
     .try_filter(|v| ready(v.is_some()))
     .filter_map(|v| ready(v.unwrap()))
     .collect::<Vec<IpNet>>()
```

`map_ok` decodes `Ok` items (a decode panic aborts the call);
`try_filter` drops `Ok(None)` items and passes `Err` items through
unchanged; `filter_map`'s closure then calls `v.unwrap()` on
`v : Result<Option<IpNet>, rtnetlink::Error>`, which panics on an `Err`
item; surviving values are collected in arrival order. -/
def collectAddrs : List (Except RtErr AddressMessage) → PanicOr (List IpNet)
  | [] => PanicOr.ok []
  | Except.error _ :: _ => PanicOr.panic
  | Except.ok v :: rest =>
    match decodeAddr v with
    | PanicOr.panic => PanicOr.panic
    | PanicOr.ok none => collectAddrs rest
    | PanicOr.ok (some net) =>
      match collectAddrs rest with
      | PanicOr.panic => PanicOr.panic
      | PanicOr.ok nets => PanicOr.ok (net :: nets)

/-- The `while let Some(link) = links.try_next().await?` loop of
`internal_addresses`: drains the link stream item by item; an `Err`
item is returned via `?` as `Error::RtNetlink` (discarding `acc`, the
`link_addrs` accumulated so far); for each `Ok` link the link's address
stream is collected and appended, then the (otherwise unused) link
counter `num_links` is incremented. -/
def goLinks (w : World) : List (Except RtErr LinkMessage) → List IpNet → Nat →
    Outcome (List IpNet)
  | [], acc, _ => Outcome.ok acc
  | Except.error e :: _, _, _ => Outcome.err (Error.RtNetlink e)
  | Except.ok link :: rest, acc, numLinks =>
    match collectAddrs (w.addrs link.index) with
    | PanicOr.panic => Outcome.panic
    | PanicOr.ok nets => goLinks w rest (acc ++ nets) (numLinks + 1)

/-- `internal_addresses(filter)`: opens the connection (surfacing a
connection failure as `Error::IoError`), requests the link stream with
the optional `match_name` filter, and runs the drain loop starting from
an empty `link_addrs` and `num_links = 0`. -/
def internal_addresses (w : World) (filter : Option String) : Outcome (List IpNet) :=
  match w.connErr with
  | some e => Outcome.err (Error.IoError e)
  | none => goLinks w (w.links filter) [] 0

/-- `addresses(link)`: builds a Tokio runtime (surfacing its failure as
`Error::IoError`) and blocks on `internal_addresses(Some(link))`. -/
def addresses (w : World) (link : String) : Outcome (List IpNet) :=
  match w.runtimeErr with
  | some e => Outcome.err (Error.IoError e)
  | none => internal_addresses w (some link)

/-- `all_addresses()`: builds a Tokio runtime and blocks on
`internal_addresses(None)`. -/
def all_addresses (w : World) : Outcome (List IpNet) :=
  match w.runtimeErr with
  | some e => Outcome.err (Error.IoError e)
  | none => internal_addresses w none

/-- The match arm `IpNet::V4(addr) => Some(*addr), IpNet::V6(_) => None`
used by the IPv4 projections. -/
def projV4 : IpNet → Option Ipv4Net
  | IpNet.V4 n => some n
  | IpNet.V6 _ => none

/-- The match arm `IpNet::V4(_) => None, IpNet::V6(addr) => Some(*addr)`
used by the IPv6 projections. -/
def projV6 : IpNet → Option Ipv6Net
  | IpNet.V4 _ => none
  | IpNet.V6 n => some n

/-- `ipv4_addresses(link)`: `addresses(link)?` then
`.iter().filter_map(projV4).collect()`. -/
def ipv4_addresses (w : World) (link : String) : Outcome (List Ipv4Net) :=
  match addresses w link with
  | Outcome.ok l => Outcome.ok (l.filterMap projV4)
  | Outcome.err e => Outcome.err e
  | Outcome.panic => Outcome.panic

/-- `ipv6_addresses(link)`: `addresses(link)?` then
`.iter().filter_map(projV6).collect()`. -/
def ipv6_addresses (w : World) (link : String) : Outcome (List Ipv6Net) :=
  match addresses w link with
  | Outcome.ok l => Outcome.ok (l.filterMap projV6)
  | Outcome.err e => Outcome.err e
  | Outcome.panic => Outcome.panic

/-- `all_ipv4_addresses()`: `all_addresses()?` then the IPv4 projection. -/
def all_ipv4_addresses (w : World) : Outcome (List Ipv4Net) :=
  match all_addresses w with
  | Outcome.ok l => Outcome.ok (l.filterMap projV4)
  | Outcome.err e => Outcome.err e
  | Outcome.panic => Outcome.panic

/-- `all_ipv6_addresses()`: `all_addresses()?` then the IPv6 projection. -/
def all_ipv6_addresses (w : World) : Outcome (List Ipv6Net) :=
  match all_addresses w with
  | Outcome.ok l => Outcome.ok (l.filterMap projV6)
  | Outcome.err e => Outcome.err e
  | Outcome.panic => Outcome.panic

/-! ### Helper lemmas about the pipeline -/

/-- If `IpNet::new` succeeds, the built network carries exactly the
prefix length it was given. -/
theorem new_ok_plen (ip : IpAddr) (p : Nat) (net : IpNet)
    (h : IpNet.new ip p = Except.ok net) : net.plen = p := by
  cases ip with
  | V4 o =>
    by_cases hp : p ≤ 32
    · simp [IpNet.new, hp] at h
      subst h
      rfl
    · simp [IpNet.new, hp] at h
  | V6 o =>
    by_cases hp : p ≤ 128
    · simp [IpNet.new, hp] at h
      subst h
      rfl
    · simp [IpNet.new, hp] at h

/-- The value a stream item contributes to the collected result: an `Ok`
record decoding to `some net` contributes `net`; `Ok` records decoding
to `none` contribute nothing. (On `Err` items and panicking decodes the
collect aborts instead; the `none` returned here is only meaningful on
streams where that does not happen.) -/
def decodeKept : Except RtErr AddressMessage → Option IpNet
  | Except.ok v =>
    match decodeAddr v with
    | PanicOr.ok o => o
    | PanicOr.panic => none
  | Except.error _ => none

/-- A stream item that cannot abort the collect: an `Ok` record whose
decode does not panic. -/
def cleanItem : Except RtErr AddressMessage → Bool
  | Except.error _ => false
  | Except.ok v =>
    match decodeAddr v with
    | PanicOr.panic => false
    | PanicOr.ok _ => true

/-- An address stream on which the collect completes normally. -/
def cleanStream (msgs : List (Except RtErr AddressMessage)) : Bool :=
  msgs.all cleanItem

/-- On a clean stream the collect succeeds and returns exactly the
decoded values, in record order. -/
theorem collectAddrs_clean (msgs : List (Except RtErr AddressMessage))
    (h : cleanStream msgs = true) :
    collectAddrs msgs = PanicOr.ok (msgs.filterMap decodeKept) := by
  induction msgs with
  | nil => rfl
  | cons x rest ih =>
    have hx : cleanItem x = true ∧ cleanStream rest = true := by
      simpa [cleanStream, List.all_cons] using h
    cases x with
    | error e => simp [cleanItem] at hx
    | ok v =>
      cases hd : decodeAddr v with
      | panic => simp [cleanItem, hd] at hx
      | ok o =>
        cases o with
        | none => simp [collectAddrs, hd, decodeKept, ih hx.2]
        | some net => simp [collectAddrs, hd, decodeKept, ih hx.2]

/-- On a stream whose items are clean up to a protocol error, the
collect reaches the `Err` item and panics (`v.unwrap()` in the
`filter_map` closure). -/
theorem collectAddrs_err (pre : List (Except RtErr AddressMessage)) (e : RtErr)
    (rest : List (Except RtErr AddressMessage)) (h : cleanStream pre = true) :
    collectAddrs (pre ++ Except.error e :: rest) = PanicOr.panic := by
  induction pre with
  | nil => simp [collectAddrs]
  | cons x xs ih =>
    have hx : cleanItem x = true ∧ cleanStream xs = true := by
      simpa [cleanStream, List.all_cons] using h
    cases x with
    | error e2 => simp [cleanItem] at hx
    | ok v =>
      cases hd : decodeAddr v with
      | panic => simp [cleanItem, hd] at hx
      | ok o =>
        cases o with
        | none => simpa [collectAddrs, hd] using ih hx.2
        | some net => simp [collectAddrs, hd, ih hx.2]

/-- The decoded addresses of the given links, flattened in link order
with each link's records in arrival order. -/
def flatAddrs (w : World) (L : List LinkMessage) : List IpNet :=
  L.flatMap fun l => (w.addrs l.index).filterMap decodeKept

/-- Draining a run of `Ok` links whose address streams are clean appends
their decoded addresses (in order) to the accumulator and continues with
the remaining stream items. -/
theorem goLinks_append_ok (w : World) (pre : List LinkMessage) :
    ∀ (tail : List (Except RtErr LinkMessage)) (acc : List IpNet) (n : Nat),
      (∀ l ∈ pre, cleanStream (w.addrs l.index) = true) →
      goLinks w (pre.map Except.ok ++ tail) acc n =
        goLinks w tail (acc ++ flatAddrs w pre) (n + pre.length) := by
  induction pre with
  | nil => intro tail acc n _; simp [flatAddrs]
  | cons l rest ih =>
    intro tail acc n h
    have hl : cleanStream (w.addrs l.index) = true := h l (by simp)
    have hrest : ∀ x ∈ rest, cleanStream (w.addrs x.index) = true :=
      fun x hx => h x (by simp [hx])
    simp only [List.map_cons, List.cons_append, goLinks, collectAddrs_clean _ hl,
      List.append_eq]
    rw [ih tail (acc ++ (w.addrs l.index).filterMap decodeKept) (n + 1) hrest]
    congr 1
    · simp [flatAddrs, List.append_assoc]
    · simp only [List.length_cons]
      omega

/-- Draining a fully `Ok`, fully clean link stream succeeds with the
accumulator followed by the flattened decoded addresses. -/
theorem goLinks_ok (w : World) (L : List LinkMessage) (acc : List IpNet) (n : Nat)
    (h : ∀ l ∈ L, cleanStream (w.addrs l.index) = true) :
    goLinks w (L.map Except.ok) acc n = Outcome.ok (acc ++ flatAddrs w L) := by
  have := goLinks_append_ok w L [] acc n h
  simpa [goLinks] using this

/-- Links whose address streams are all empty contribute no addresses. -/
theorem flatAddrs_nil (w : World) (L : List LinkMessage)
    (h : ∀ l ∈ L, w.addrs l.index = []) : flatAddrs w L = [] := by
  induction L with
  | nil => rfl
  | cons l rest ih =>
    have hl : w.addrs l.index = [] := h l (by simp)
    have hrest : ∀ x ∈ rest, w.addrs x.index = [] := fun x hx => h x (by simp [hx])
    rw [flatAddrs, List.flatMap_cons, hl]
    simpa [flatAddrs] using ih hrest

/-! ### Concrete environments used to exercise the theorems -/

/-- A host with no links and no addresses, with a healthy runtime and
connection. -/
def w0 : World := ⟨none, none, fun _ => [], fun _ => []⟩

/-- One healthy link (index 1) whose address stream reports a protocol
error as its first item. -/
def wAddrErr : World :=
  ⟨none, none, fun _ => [Except.ok ⟨1⟩], fun _ => [Except.error 7]⟩

/-- A link stream whose first item is a protocol error. -/
def wLinkErr : World := ⟨none, none, fun _ => [Except.error 3], fun _ => []⟩

/-- A healthy connection whose link stream fails. -/
def wConnErr : World := ⟨none, some 5, fun _ => [], fun _ => []⟩

/-! ### C1 — length-mismatched payloads -/

/-- C1: counterexample. An IPv4-tagged record whose payload has 3 bytes
(≠ 4 and ≠ 16) does not decode to `None`: the failed
`try_into().unwrap()` panics, so the decoding step is not total. -/
theorem c1_counterexample :
    decodeAddr ⟨⟨2, 0⟩, [Nla.Address [1, 2, 3]]⟩ = PanicOr.panic ∧
    decodeAddr ⟨⟨2, 0⟩, [Nla.Address [1, 2, 3]]⟩ ≠ PanicOr.ok none := by
  decide

/-- C1 (amended): for a payload whose length is neither 4 nor 16, the
decoder returns `None` only when the declared family is neither IPv4 nor
IPv6; when the family is IPv4 or IPv6 the decoder panics on the failed
byte-array conversion instead of dropping the record. -/
theorem c1_amended (hdr : AddressHeader) (bytes : List Byte) (rest : List Nla)
    (h4 : bytes.length ≠ 4) (h16 : bytes.length ≠ 16) :
    (hdr.family ≠ AF_INET → hdr.family ≠ AF_INET6 →
      decodeAddr ⟨hdr, Nla.Address bytes :: rest⟩ = PanicOr.ok none) ∧
    (hdr.family = AF_INET ∨ hdr.family = AF_INET6 →
      decodeAddr ⟨hdr, Nla.Address bytes :: rest⟩ = PanicOr.panic) := by
  constructor
  · intro hne4 hne6
    simp [decodeAddr, hne4, hne6]
  · rintro (h | h) <;> simp [decodeAddr, h, h4, h16, AF_INET, AF_INET6]

/-- C1 (amended) at concrete inputs: a 3-byte payload is dropped under
an unrecognized family but panics under the IPv6 family. -/
theorem c1_amended_witness :
    decodeAddr ⟨⟨0, 0⟩, [Nla.Address [1, 2, 3]]⟩ = PanicOr.ok none ∧
    decodeAddr ⟨⟨10, 0⟩, [Nla.Address [1, 2, 3]]⟩ = PanicOr.panic := by
  constructor
  · exact (c1_amended ⟨0, 0⟩ [1, 2, 3] [] (by decide) (by decide)).1
      (by decide) (by decide)
  · exact (c1_amended ⟨10, 0⟩ [1, 2, 3] [] (by decide) (by decide)).2 (Or.inr rfl)

/-! ### C2 — lookup of a name matching zero links -/

/-- C2: counterexample. On a host where the name `nonexistent0` matches
zero links, `addresses` returns the successful empty sequence, not an
error: the implementation counts the matched links but never checks the
count, and its error type has no not-found variant. -/
theorem c2_counterexample : addresses w0 "nonexistent0" = Outcome.ok [] := rfl

/-- C2 (amended): for every link name that matches zero links (and a
healthy runtime and connection), `addresses` succeeds with the empty
sequence rather than failing. -/
theorem c2_amended (w : World) (name : String)
    (hrt : w.runtimeErr = none) (hc : w.connErr = none)
    (hl : w.links (some name) = []) :
    addresses w name = Outcome.ok [] := by
  simp [addresses, internal_addresses, hrt, hc, hl, goLinks]

/-- C2 (amended) at a concrete input: the empty host, name
`nonexistent0`. -/
theorem c2_amended_witness : addresses w0 "nonexistent0" = Outcome.ok [] :=
  c2_amended w0 "nonexistent0" rfl rfl rfl

/-! ### C3 — correctly sized payloads of a recognized family -/

/-- C3: a record whose first attribute is an `Address` with exactly 4
bytes, tagged IPv4, with an in-range prefix length (the data model's
0–32), decodes to the IPv4 network made of exactly those octets and that
prefix length; analogously for IPv6 with 16 bytes and prefix 0–128. -/
theorem c3_decode (hdr : AddressHeader) (bytes : List Byte) (rest : List Nla) :
    (hdr.family = AF_INET → bytes.length = 4 → hdr.plen ≤ 32 →
      decodeAddr ⟨hdr, Nla.Address bytes :: rest⟩ =
        PanicOr.ok (some (IpNet.V4 ⟨bytes, hdr.plen⟩))) ∧
    (hdr.family = AF_INET6 → bytes.length = 16 → hdr.plen ≤ 128 →
      decodeAddr ⟨hdr, Nla.Address bytes :: rest⟩ =
        PanicOr.ok (some (IpNet.V6 ⟨bytes, hdr.plen⟩))) := by
  constructor
  · intro hf hlen hp
    simp [decodeAddr, hf, hlen, IpNet.new, hp]
  · intro hf hlen hp
    simp [decodeAddr, hf, hlen, IpNet.new, hp, AF_INET, AF_INET6]

/-- C3 at the spec's `lo` scenario: `127.0.0.1/8` and `::1/128`. -/
theorem c3_decode_witness :
    decodeAddr ⟨⟨2, 8⟩, [Nla.Address [127, 0, 0, 1]]⟩ =
      PanicOr.ok (some (IpNet.V4 ⟨[127, 0, 0, 1], 8⟩)) ∧
    decodeAddr ⟨⟨10, 128⟩,
        [Nla.Address [0, 0, 0, 0, 0, 0, 0, 0, 0, 0, 0, 0, 0, 0, 0, 1]]⟩ =
      PanicOr.ok
        (some (IpNet.V6 ⟨[0, 0, 0, 0, 0, 0, 0, 0, 0, 0, 0, 0, 0, 0, 0, 1], 128⟩)) := by
  constructor
  · exact (c3_decode ⟨2, 8⟩ [127, 0, 0, 1] []).1 rfl rfl (by decide)
  · exact (c3_decode ⟨10, 128⟩
      [0, 0, 0, 0, 0, 0, 0, 0, 0, 0, 0, 0, 0, 0, 0, 1] []).2 rfl rfl (by decide)

/-! ### C9 — only the first attribute is inspected -/

/-- C9: the decoder looks only at `v.nlas.first()`: whenever the first
attribute of a record is not an `Address` attribute (or there is no
attribute at all), the record decodes to `None`, even if an `Address`
attribute occurs later in the list. -/
theorem c9_first_attribute (hdr : AddressHeader) (nlas : List Nla)
    (h : ∀ bytes, nlas.head? ≠ some (Nla.Address bytes)) :
    decodeAddr ⟨hdr, nlas⟩ = PanicOr.ok none := by
  cases hm : nlas.head? with
  | none => simp [decodeAddr, hm]
  | some nla =>
    cases nla with
    | Address bytes => exact absurd hm (h bytes)
    | Other k b => simp [decodeAddr, hm]

/-- C9 at a concrete input: an IPv4-tagged record whose first attribute
is not an `Address`, with a well-formed `Address` attribute in second
position, is still dropped. -/
theorem c9_first_attribute_witness :
    decodeAddr ⟨⟨2, 8⟩, [Nla.Other 1 [], Nla.Address [127, 0, 0, 1]]⟩ =
      PanicOr.ok none :=
  c9_first_attribute ⟨2, 8⟩ [Nla.Other 1 [], Nla.Address [127, 0, 0, 1]]
    (fun bytes => by simp)

/-! ### C4 — ordering of the result sequence -/

/-- C4: when the link stream yields the links `L` (all `Ok`) and every
link's address stream is drained without error or panic, the call
returns exactly the concatenation, in link-enumeration order, of each
link's decoded addresses in kernel record order — a flat map with no
deduplication and no sorting. -/
theorem c4_ordering (w : World) (f : Option String) (L : List LinkMessage)
    (hc : w.connErr = none)
    (hl : w.links f = L.map Except.ok)
    (ha : ∀ l ∈ L, cleanStream (w.addrs l.index) = true) :
    internal_addresses w f =
      Outcome.ok (L.flatMap fun l => (w.addrs l.index).filterMap decodeKept) := by
  simp only [internal_addresses, hc, hl]
  simpa [flatAddrs] using goLinks_ok w L [] 0 ha

/-- A two-link host: link 1 has an IPv4 record then a record of an
unrecognized family (dropped), link 2 has an IPv6 record. -/
def wTwo : World :=
  ⟨none, none, fun _ => [Except.ok ⟨1⟩, Except.ok ⟨2⟩],
   fun i =>
     if i = 1 then
       [Except.ok ⟨⟨2, 8⟩, [Nla.Address [127, 0, 0, 1]]⟩,
        Except.ok ⟨⟨7, 0⟩, [Nla.Address [9, 9]]⟩]
     else if i = 2 then
       [Except.ok ⟨⟨10, 128⟩,
          [Nla.Address [0, 0, 0, 0, 0, 0, 0, 0, 0, 0, 0, 0, 0, 0, 0, 1]]⟩]
     else []⟩

/-- C4 at a concrete host: link 1's surviving address precedes link 2's,
and the undecodable record is dropped without reordering anything. -/
theorem c4_ordering_witness :
    internal_addresses wTwo none =
      Outcome.ok
        [IpNet.V4 ⟨[127, 0, 0, 1], 8⟩,
         IpNet.V6 ⟨[0, 0, 0, 0, 0, 0, 0, 0, 0, 0, 0, 0, 0, 0, 0, 1], 128⟩] :=
  (c4_ordering wTwo none [⟨1⟩, ⟨2⟩] rfl rfl (by decide)).trans (by decide)

/-! ### C5 — failure policy of the two stream levels -/

/-- C5: counterexample. A protocol error in a link's address stream does
not come back as the returned error: the pipeline panics (the
`filter_map` closure calls `v.unwrap()` on the `Err` item that
`try_filter` passed through). -/
theorem c5_counterexample :
    internal_addresses wAddrErr none = Outcome.panic ∧
    internal_addresses wAddrErr none ≠ Outcome.err (Error.RtNetlink 7) := by
  decide

/-- C5 (amended): an error while draining the link stream aborts the
whole call and is returned as `Error::RtNetlink`, discarding the
addresses already gathered for earlier links; an error while draining a
link's address stream also aborts the whole call, but by a panic rather
than a returned error. In neither case is a partial sequence returned. -/
theorem c5_amended :
    (∀ (w : World) (f : Option String) (pre : List LinkMessage) (e : RtErr)
        (rest : List (Except RtErr LinkMessage)),
      w.connErr = none →
      w.links f = pre.map Except.ok ++ Except.error e :: rest →
      (∀ l ∈ pre, cleanStream (w.addrs l.index) = true) →
      internal_addresses w f = Outcome.err (Error.RtNetlink e)) ∧
    (∀ (w : World) (f : Option String) (pre : List LinkMessage) (l : LinkMessage)
        (rest : List (Except RtErr LinkMessage))
        (msgs : List (Except RtErr AddressMessage)) (e : RtErr)
        (rest2 : List (Except RtErr AddressMessage)),
      w.connErr = none →
      w.links f = pre.map Except.ok ++ Except.ok l :: rest →
      (∀ p ∈ pre, cleanStream (w.addrs p.index) = true) →
      w.addrs l.index = msgs ++ Except.error e :: rest2 →
      cleanStream msgs = true →
      internal_addresses w f = Outcome.panic) := by
  constructor
  · intro w f pre e rest hc hl hpre
    simp only [internal_addresses, hc, hl]
    rw [goLinks_append_ok w pre _ [] 0 hpre]
    simp [goLinks]
  · intro w f pre l rest msgs e rest2 hc hl hpre haddr hclean
    simp only [internal_addresses, hc, hl]
    rw [goLinks_append_ok w pre _ [] 0 hpre]
    simp [goLinks, haddr, collectAddrs_err _ _ _ hclean]

/-- C5 (amended) at concrete hosts: a link-stream error is returned as
`RtNetlink`, an address-stream error panics. -/
theorem c5_amended_witness :
    internal_addresses wLinkErr none = Outcome.err (Error.RtNetlink 3) ∧
    internal_addresses wAddrErr none = Outcome.panic := by
  constructor
  · exact c5_amended.1 wLinkErr none [] 3 [] rfl rfl (by simp)
  · exact c5_amended.2 wAddrErr none [] ⟨1⟩ [] [] 7 [] rfl rfl (by simp) rfl rfl

/-! ### C6 — empty hosts are a valid empty success -/

/-- C6: with no filter, a healthy runtime and connection, and a host
whose link stream yields links (possibly none) that all have empty
address streams, `all_addresses` returns the successful empty
sequence, not an error. -/
theorem c6_empty_success (w : World) (L : List LinkMessage)
    (hrt : w.runtimeErr = none) (hc : w.connErr = none)
    (hl : w.links none = L.map Except.ok)
    (ha : ∀ l ∈ L, w.addrs l.index = []) :
    all_addresses w = Outcome.ok [] := by
  have hclean : ∀ l ∈ L, cleanStream (w.addrs l.index) = true := by
    intro l hmem
    rw [ha l hmem]
    rfl
  simp only [all_addresses, internal_addresses, hrt, hc, hl]
  rw [goLinks_ok w L [] 0 hclean, flatAddrs_nil w L ha]
  rfl

/-- C6 at the zero-link host. -/
theorem c6_empty_success_witness : all_addresses w0 = Outcome.ok [] :=
  c6_empty_success w0 [] rfl rfl rfl (by simp)

/-! ### C7 — family projections refine their unfiltered counterparts -/

/-- Spec-side description of the family projections, written from the
spec's words for comparison with the implementation: when the base call
succeeds, keep exactly the entries of the selected family, preserving
their relative order; otherwise reproduce the base call's error or
panic unchanged. -/
def specProject {β : Type} (f : IpNet → Option β) :
    Outcome (List IpNet) → Outcome (List β)
  | Outcome.ok l => Outcome.ok (l.filterMap f)
  | Outcome.err e => Outcome.err e
  | Outcome.panic => Outcome.panic

/-- C7: each family-restricted operation equals the spec-side projection
of its unfiltered counterpart — same error (and panic) behavior, and on
success the other family's entries are discarded with the remaining
entries in their original relative order. -/
theorem c7_projection (w : World) (link : String) :
    ipv4_addresses w link = specProject projV4 (addresses w link) ∧
    ipv6_addresses w link = specProject projV6 (addresses w link) ∧
    all_ipv4_addresses w = specProject projV4 (all_addresses w) ∧
    all_ipv6_addresses w = specProject projV6 (all_addresses w) := by
  refine ⟨?_, ?_, ?_, ?_⟩
  · cases h : addresses w link <;> simp [ipv4_addresses, specProject, h]
  · cases h : addresses w link <;> simp [ipv6_addresses, specProject, h]
  · cases h : all_addresses w <;> simp [all_ipv4_addresses, specProject, h]
  · cases h : all_addresses w <;> simp [all_ipv6_addresses, specProject, h]

/-- C7 at a concrete host: on `wTwo`, the IPv4 projection keeps only the
IPv4 entry. -/
theorem c7_projection_witness :
    all_ipv4_addresses wTwo = specProject projV4 (all_addresses wTwo) ∧
    all_ipv4_addresses wTwo = Outcome.ok [⟨[127, 0, 0, 1], 8⟩] :=
  ⟨(c7_projection wTwo "lo").2.2.1, by decide⟩

/-! ### C8 — prefix lengths are passed through, never clamped -/

/-- C8: the prefix length flows uninterpreted from the record header
into the network value — whenever the decoder yields a network, its
prefix length is exactly the record's; and for a correctly sized payload
of a recognized family with an out-of-range prefix length (> 32 for
IPv4, > 128 for IPv6), the `IpNet::new` constructor reports a
construction error — the value is never silently clamped — which the
decode step's `unwrap` turns into a panic. -/
theorem c8_plen_uninterpreted :
    (∀ (v : AddressMessage) (net : IpNet),
      decodeAddr v = PanicOr.ok (some net) → net.plen = v.header.plen) ∧
    (∀ (hdr : AddressHeader) (bytes : List Byte) (rest : List Nla),
      hdr.family = AF_INET → bytes.length = 4 → 32 < hdr.plen →
      IpNet.new (IpAddr.V4 bytes) hdr.plen = Except.error ⟨⟩ ∧
      decodeAddr ⟨hdr, Nla.Address bytes :: rest⟩ = PanicOr.panic) ∧
    (∀ (hdr : AddressHeader) (bytes : List Byte) (rest : List Nla),
      hdr.family = AF_INET6 → bytes.length = 16 → 128 < hdr.plen →
      IpNet.new (IpAddr.V6 bytes) hdr.plen = Except.error ⟨⟩ ∧
      decodeAddr ⟨hdr, Nla.Address bytes :: rest⟩ = PanicOr.panic) := by
  refine ⟨?_, ?_, ?_⟩
  · intro v net h
    obtain ⟨⟨fam, p⟩, nlas⟩ := v
    match nlas with
    | [] => simp [decodeAddr] at h
    | Nla.Other k b :: rest => simp [decodeAddr] at h
    | Nla.Address bytes :: rest =>
      by_cases hf4 : fam = AF_INET
      · by_cases hlen : bytes.length = 4
        · by_cases hp : p ≤ 32
          · simp [decodeAddr, hf4, hlen, IpNet.new, hp] at h
            subst h
            rfl
          · simp [decodeAddr, hf4, hlen, IpNet.new, hp] at h
        · simp [decodeAddr, hf4, hlen] at h
      · by_cases hf6 : fam = AF_INET6
        · by_cases hlen : bytes.length = 16
          · by_cases hp : p ≤ 128
            · simp [decodeAddr, hf4, hf6, hlen, IpNet.new, hp, AF_INET, AF_INET6] at h
              subst h
              rfl
            · simp [decodeAddr, hf4, hf6, hlen, IpNet.new, hp, AF_INET, AF_INET6] at h
          · simp [decodeAddr, hf4, hf6, hlen, AF_INET, AF_INET6] at h
        · simp [decodeAddr, hf4, hf6] at h
  · intro hdr bytes rest hf hlen hp
    have hnew : IpNet.new (IpAddr.V4 bytes) hdr.plen = Except.error ⟨⟩ := by
      simp [IpNet.new, Nat.not_le.mpr hp]
    exact ⟨hnew, by simp [decodeAddr, hf, hlen, hnew]⟩
  · intro hdr bytes rest hf hlen hp
    have hnew : IpNet.new (IpAddr.V6 bytes) hdr.plen = Except.error ⟨⟩ := by
      simp [IpNet.new, Nat.not_le.mpr hp]
    exact ⟨hnew, by simp [decodeAddr, hf, hlen, hnew, AF_INET, AF_INET6]⟩

/-- C8 at a concrete input: a 4-byte IPv4 payload with prefix length 33
makes the constructor error and the decode step panic. -/
theorem c8_plen_uninterpreted_witness :
    IpNet.new (IpAddr.V4 [10, 0, 0, 1]) 33 = Except.error ⟨⟩ ∧
    decodeAddr ⟨⟨2, 33⟩, [Nla.Address [10, 0, 0, 1]]⟩ = PanicOr.panic :=
  c8_plen_uninterpreted.2.1 ⟨2, 33⟩ [10, 0, 0, 1] [] rfl rfl (by decide)

/-! ### C10 — the public error taxonomy has exactly two kinds -/

/-- C10: every value of the public error type is either an rtnetlink
protocol failure or a connection/IO failure — the two kinds are distinct
and there is no third (in particular no not-found kind) — so every error
returned by any of the six public operations is one of these two. -/
theorem c10_error_kinds :
    (∀ e : Error,
      (∃ r, e = Error.RtNetlink r) ∨ (∃ i, e = Error.IoError i)) ∧
    (∀ r i, Error.RtNetlink r ≠ Error.IoError i) ∧
    (∀ (w : World) (link : String) (e : Error),
      (addresses w link = Outcome.err e ∨
       ipv4_addresses w link = Outcome.err e ∨
       ipv6_addresses w link = Outcome.err e ∨
       all_addresses w = Outcome.err e ∨
       all_ipv4_addresses w = Outcome.err e ∨
       all_ipv6_addresses w = Outcome.err e) →
      (∃ r, e = Error.RtNetlink r) ∨ (∃ i, e = Error.IoError i)) := by
  refine ⟨?_, ?_, ?_⟩
  · intro e
    cases e with
    | RtNetlink r => exact Or.inl ⟨r, rfl⟩
    | IoError i => exact Or.inr ⟨i, rfl⟩
  · intro r i h
    cases h
  · intro w link e _
    cases e with
    | RtNetlink r => exact Or.inl ⟨r, rfl⟩
    | IoError i => exact Or.inr ⟨i, rfl⟩

/-- C10 at a concrete failing call: the error returned by `addresses` on
a host whose connection fails is one of the two kinds. -/
theorem c10_error_kinds_witness :
    (∃ r, Error.IoError 5 = Error.RtNetlink r) ∨
    (∃ i, Error.IoError 5 = Error.IoError i) :=
  c10_error_kinds.2.2 wConnErr "eth0" (Error.IoError 5) (Or.inl rfl)

end Linkaddrs
